import Mathlib

/-!
Verification of the paperfetch enrichment pipeline.

Shallow embedding of the concurrent per-paper LLM enrichment pipeline of
src/llm.py (process_papers_with_llm and its inner process_single_paper) and
of the ranking / digest guard of src/mail.py (format_email_content,
send_results_email).

Modelling choices, stated once:
* Python dynamic values that flow through the pipeline (the value returned
  by ast.literal_eval, the interest_rating variable that holds an int, a
  string or None) are modelled by the inductive PyVal.
* A model call (client.chat.completions.create) is external: each call is
  modelled by a CallResult, and a run is parameterised by a response
  function from call index to CallResult per stage.  CallResult.ok carries
  the returned message text; CallResult.errParse is a raised exception that
  the first, narrow except clause of the stage catches (ValueError or
  SyntaxError for the summary stage, ValueError or TypeError for the rating
  stage); CallResult.errOther is any other raised Exception, caught by the
  broad except clause.
* ast.literal_eval is modelled by literal_eval below: a parser for Python
  literals restricted to the forms the pipeline can meet (integers, quoted
  strings with the common escapes, True, False, None, and possibly nested
  list literals with optional trailing comma).  Floats, tuples, dicts, sets,
  bytes and exotic escapes are not modelled; on every modelled form the
  parser agrees with Python, and all theorems use only modelled forms.
* int(text) on a string is modelled by pyInt, str.strip() by pyStrip.
* asyncio.gather(..., return_exceptions=True) delivers, per task, either the
  task value or the exception that escaped it; this is modelled by
  Except String (title, value).  An unexpected error escaping a per-paper
  task (a programming fault, outside the modelled code paths) is injected
  through a crash parameter from title to Option String.
* Python sort with a key and reverse=True is a stable descending sort; it is
  modelled by List.insertionSort with the relation descendingByKey (both are
  stable, so they compute the same list).
-/

namespace Paperfetch

/-- Dynamic Python values flowing through the pipeline: the result of
ast.literal_eval, the interest_rating variable (int, str or None), the
fields of the per-paper result dict. -/
inductive PyVal where
  | int (n : Int)
  | str (s : String)
  | bool (b : Bool)
  | none
  | list (elems : List PyVal)

/-- Outcome of one model call, as seen by the calling stage.  ok is a
returned message text; errParse is an exception the narrow except clause
catches; errOther is any other Exception, caught by the broad clause. -/
inductive CallResult where
  | ok (text : String)
  | errParse (msg : String)
  | errOther (msg : String)

/-- Whitespace for str.strip and for the literal parser. -/
def isPyWs (c : Char) : Bool :=
  c = ' ' || c = '\t' || c = '\n' || c = '\r'

/-- Drop leading whitespace from a character list. -/
def skipWs : List Char → List Char
  | [] => []
  | c :: cs => if isPyWs c then skipWs cs else c :: cs

/-- Strip leading and trailing whitespace (Python str.strip). -/
def stripChars (cs : List Char) : List Char :=
  (skipWs (skipWs cs).reverse).reverse

/-- Python str.strip() on a string. -/
def pyStrip (s : String) : String :=
  String.mk (stripChars s.toList)

/-- Decimal digits to a natural number, left to right. -/
def digitsToNat (acc : Nat) : List Char → Nat
  | [] => acc
  | c :: cs => digitsToNat (acc * 10 + (c.toNat - 48)) cs

/-- Split off the leading run of decimal digits. -/
def takeDigits : List Char → List Char × List Char
  | [] => ([], [])
  | c :: cs =>
    if c.isDigit then
      let r := takeDigits cs
      (c :: r.1, r.2)
    else ([], c :: cs)

/-- Python int(text) on a string: surrounding whitespace, an optional sign,
then one or more decimal digits; anything else raises ValueError (modelled
as Option.none). -/
def pyInt (s : String) : Option Int :=
  match stripChars s.toList with
  | [] => Option.none
  | c :: cs =>
    let signed : Bool × List Char :=
      if c = '-' then (true, cs)
      else if c = '+' then (false, cs)
      else (false, c :: cs)
    if !signed.2.isEmpty && signed.2.all Char.isDigit then
      let n : Int := Int.ofNat (digitsToNat 0 signed.2)
      some (if signed.1 then -n else n)
    else Option.none

/-- The character an escape sequence stands for, for the escapes the model
covers (backslash, both quotes, n, t). -/
def escChar (c : Char) : Option Char :=
  if c = '\\' then some '\\'
  else if c = '\'' then some '\''
  else if c = '"' then some '"'
  else if c = 'n' then some '\n'
  else if c = 't' then some '\t'
  else Option.none

/-- Parse a leading unsigned decimal integer and apply the sign (helper for
parseVal). -/
def parseNumber (neg : Bool) (cs : List Char) : Option (PyVal × List Char) :=
  match takeDigits cs with
  | ([], _) => Option.none
  | (ds, rest) =>
    let n : Int := Int.ofNat (digitsToNat 0 ds)
    some (PyVal.int (if neg then -n else n), rest)

mutual

/-- Parse one Python literal from the front of the character list.  fuel
only bounds recursion depth; the caller passes enough for any input of the
given length. -/
def parseVal : Nat → List Char → Option (PyVal × List Char)
  | 0, _ => Option.none
  | fuel + 1, cs =>
    match skipWs cs with
    | [] => Option.none
    | c :: rest =>
      if c = '[' then
        match parseElems fuel (skipWs rest) with
        | some (vs, rest2) => some (PyVal.list vs, rest2)
        | Option.none => Option.none
      else if c = '\'' || c = '"' then
        match parseStrBody fuel c rest with
        | some (body, rest2) => some (PyVal.str (String.mk body), rest2)
        | Option.none => Option.none
      else if c = '-' then parseNumber true rest
      else if c = '+' then parseNumber false rest
      else if c.isDigit then parseNumber false (c :: rest)
      else if (c :: rest).take 4 = ['T', 'r', 'u', 'e'] then
        some (PyVal.bool true, (c :: rest).drop 4)
      else if (c :: rest).take 5 = ['F', 'a', 'l', 's', 'e'] then
        some (PyVal.bool false, (c :: rest).drop 5)
      else if (c :: rest).take 4 = ['N', 'o', 'n', 'e'] then
        some (PyVal.none, (c :: rest).drop 4)
      else Option.none

/-- Parse the elements of a list literal, positioned after the opening
bracket (whitespace already skipped); allows a trailing comma as Python
does. -/
def parseElems : Nat → List Char → Option (List PyVal × List Char)
  | 0, _ => Option.none
  | fuel + 1, cs =>
    match cs with
    | [] => Option.none
    | c :: rest =>
      if c = ']' then some ([], rest)
      else
        match parseVal fuel (c :: rest) with
        | some (v, rest2) =>
          match skipWs rest2 with
          | [] => Option.none
          | c2 :: rest3 =>
            if c2 = ',' then
              match parseElems fuel (skipWs rest3) with
              | some (vs, rest4) => some (v :: vs, rest4)
              | Option.none => Option.none
            else if c2 = ']' then some ([v], rest3)
            else Option.none
        | Option.none => Option.none

/-- Parse the body of a quoted string, positioned after the opening quote
q, up to the matching closing quote. -/
def parseStrBody : Nat → Char → List Char → Option (List Char × List Char)
  | 0, _, _ => Option.none
  | fuel + 1, q, cs =>
    match cs with
    | [] => Option.none
    | c :: rest =>
      if c = q then some ([], rest)
      else if c = '\\' then
        match rest with
        | [] => Option.none
        | e :: rest2 =>
          match escChar e with
          | some ec =>
            match parseStrBody fuel q rest2 with
            | some (body, rest3) => some (ec :: body, rest3)
            | Option.none => Option.none
          | Option.none => Option.none
      else
        match parseStrBody fuel q rest with
        | some (body, rest3) => some (c :: body, rest3)
        | Option.none => Option.none

end

/-- Model of ast.literal_eval on the model output text: parse one literal
and require that only whitespace remains.  Returns Option.none exactly when
Python would raise ValueError or SyntaxError (on the modelled forms). -/
def literal_eval (s : String) : Option PyVal :=
  match parseVal (2 * s.length + 2) s.toList with
  | some (v, rest) => if (skipWs rest).isEmpty then some v else Option.none
  | Option.none => Option.none

/-- One entry of the papers_with_abstracts mapping (src/llm.py lines 49-52):
the abstract and the source url of a paper. -/
structure PaperData where
  abstract : String
  url : String

/-- The model-call capability for one paper task: the response to the i-th
summary-stage call and to the i-th rating-stage call (0-indexed).  A run of
process_single_paper makes its calls in this order, so indexing calls by
count is faithful. -/
structure PaperEnv where
  summaryResp : Nat → CallResult
  ratingResp : Nat → CallResult

/-- The configuration fields process_single_paper reads.  max_attempts
models config api max_attempts, read with default 3 in line 55 of
src/llm.py; researcher_interests models config search researcher_interests
(lines 90-98), which only changes the prompt text, not the control flow. -/
structure Config where
  max_attempts : Option Nat := Option.none
  researcher_interests : Option String := Option.none

/-- How the summary retry loop of src/llm.py lines 58-82 ends: success with
the literal_eval value, a return from the narrow except clause on the last
attempt, a return from the broad except clause on the last attempt, or loop
exhaustion without any attempt (only possible for an empty range). -/
inductive SummaryLoopOut where
  | success (v : PyVal)
  | parseFailLast
  | otherFailLast
  | exhausted

/-- The summary retry loop (src/llm.py lines 58-82) over the remaining
responses, one per attempt; the singleton case is the final attempt
(attempt index max_attempts - 1).  Returns the outcome and the number of
model calls made. -/
def summaryLoop : List CallResult → SummaryLoopOut × Nat
  | [] => (SummaryLoopOut.exhausted, 0)
  | [r] =>
    match r with
    | CallResult.ok text =>
      match literal_eval text with
      | some v => (SummaryLoopOut.success v, 1)
      | Option.none => (SummaryLoopOut.parseFailLast, 1)
    | CallResult.errParse _ => (SummaryLoopOut.parseFailLast, 1)
    | CallResult.errOther _ => (SummaryLoopOut.otherFailLast, 1)
  | r :: r2 :: rest =>
    match r with
    | CallResult.ok text =>
      match literal_eval text with
      | some v => (SummaryLoopOut.success v, 1)
      | Option.none =>
        let next := summaryLoop (r2 :: rest)
        (next.1, next.2 + 1)
    | CallResult.errParse _ =>
      let next := summaryLoop (r2 :: rest)
      (next.1, next.2 + 1)
    | CallResult.errOther _ =>
      let next := summaryLoop (r2 :: rest)
      (next.1, next.2 + 1)

/-- The rating retry loop (src/llm.py lines 100-126) over the remaining
responses, threading the interest_rating variable (initially PyVal.none).
On a successful call the loop assigns int(text.strip()) to the variable
before the range check, keeps it across further attempts when the value is
out of range, and overwrites it with a failure string when the final
attempt fails; total is rating_attempts, used only in the failure text.
Returns the final interest_rating and the number of model calls made. -/
def ratingLoop (total : Nat) : List CallResult → PyVal → PyVal × Nat
  | [], st => (st, 0)
  | [r], _st =>
    match r with
    | CallResult.ok text =>
      match pyInt (pyStrip text) with
      | some n =>
        if 0 ≤ n ∧ n ≤ 10 then (PyVal.int n, 1)
        else (PyVal.str ("Failed to get rating after " ++ toString total ++ " attempts"), 1)
      | Option.none =>
        (PyVal.str ("Failed to get rating after " ++ toString total ++ " attempts"), 1)
    | CallResult.errParse _ =>
      (PyVal.str ("Failed to get rating after " ++ toString total ++ " attempts"), 1)
    | CallResult.errOther _ =>
      (PyVal.str "Failed to get rating due to unexpected error", 1)
  | r :: r2 :: rest, st =>
    match r with
    | CallResult.ok text =>
      match pyInt (pyStrip text) with
      | some n =>
        if 0 ≤ n ∧ n ≤ 10 then (PyVal.int n, 1)
        else
          let next := ratingLoop total (r2 :: rest) (PyVal.int n)
          (next.1, next.2 + 1)
      | Option.none =>
        let next := ratingLoop total (r2 :: rest) st
        (next.1, next.2 + 1)
    | CallResult.errParse _ =>
      let next := ratingLoop total (r2 :: rest) st
      (next.1, next.2 + 1)
    | CallResult.errOther _ =>
      let next := ratingLoop total (r2 :: rest) st
      (next.1, next.2 + 1)

/-- The summary_result is None check of src/llm.py line 84: true exactly
for the Python None value, which literal_eval produces from the text None
(so a parsed None counts as no summary, same as an empty attempt range). -/
def PyVal.isNone : PyVal → Bool
  | PyVal.none => true
  | _ => false

/-- What a per-paper task returns as its paper_result value: the structured
dict built in lines 129-133 of src/llm.py (with its summary,
interest_rating and url fields), or one of the plain failure strings
returned from the summary stage (lines 78, 82, 85). -/
inductive PaperValue where
  | structured (summary : PyVal) (interest_rating : PyVal) (url : String)
  | failure (msg : String)

/-- Whether a paper_result value is one of the plain failure strings. -/
def PaperValue.isFailure : PaperValue → Bool
  | PaperValue.structured _ _ _ => false
  | PaperValue.failure _ => true

/-- One run of process_single_paper, instrumented with the number of model
calls each stage made (ghost data: the counts never influence value). -/
structure SingleRun where
  value : PaperValue
  summaryCalls : Nat
  ratingCalls : Nat

/-- Model of process_single_paper (src/llm.py lines 49-140).  Reads
max_attempts from the config with default 3, runs the summary retry loop;
on summary failure returns the corresponding failure string without any
rating call; a summary_result that is None after the loop (a parsed None
literal, or an empty attempt range) is returned as the line 85 failure
string; otherwise runs the rating retry loop with the hardcoded
rating_attempts = 3 (line 88) and returns the structured result dict with
the paper url. -/
def process_single_paper (title : String) (paper : PaperData) (env : PaperEnv)
    (config : Config) : SingleRun :=
  let max_attempts := config.max_attempts.getD 3
  let summaryRun := summaryLoop ((List.range max_attempts).map env.summaryResp)
  match summaryRun.1 with
  | SummaryLoopOut.success v =>
    if v.isNone then
      { value := PaperValue.failure
          ("Failed to get summary after " ++ toString max_attempts ++ " attempts")
        summaryCalls := summaryRun.2
        ratingCalls := 0 }
    else
      let rating_attempts := 3
      let ratingRun :=
        ratingLoop rating_attempts ((List.range rating_attempts).map env.ratingResp) PyVal.none
      { value := PaperValue.structured v ratingRun.1 paper.url
        summaryCalls := summaryRun.2
        ratingCalls := ratingRun.2 }
  | SummaryLoopOut.parseFailLast =>
    { value := PaperValue.failure
        ("Failed to parse output after " ++ toString max_attempts
          ++ " attempts, skipping paper: " ++ title)
      summaryCalls := summaryRun.2
      ratingCalls := 0 }
  | SummaryLoopOut.otherFailLast =>
    { value := PaperValue.failure
        ("Failed after " ++ toString max_attempts
          ++ " attempts due to unexpected error, skipping paper: " ++ title)
      summaryCalls := summaryRun.2
      ratingCalls := 0 }
  | SummaryLoopOut.exhausted =>
    { value := PaperValue.failure
        ("Failed to get summary after " ++ toString max_attempts ++ " attempts")
      summaryCalls := summaryRun.2
      ratingCalls := 0 }

/-- Python dict assignment res[title] = v on an association list that keeps
insertion order: overwrite in place when the key exists, else append. -/
def dictSet : List (String × PaperValue) → String → PaperValue → List (String × PaperValue)
  | [], k, v => [(k, v)]
  | p :: rest, k, v =>
    if p.1 = k then (k, v) :: rest else p :: dictSet rest k v

/-- The body of the result-collection loop after asyncio.gather (src/llm.py
lines 152-157): a task that ended in an exception is skipped, the value of
any other is written into the res dict keyed by title. -/
def gatherStep (res : List (String × PaperValue))
    (r : Except String (String × PaperValue)) : List (String × PaperValue) :=
  match r with
  | Except.error _ => res
  | Except.ok tv => dictSet res tv.1 tv.2

/-- The result-collection loop after asyncio.gather (src/llm.py lines
151-157), starting from the empty res dict. -/
def gatherResults (tasks : List (Except String (String × PaperValue))) :
    List (String × PaperValue) :=
  tasks.foldl gatherStep []

/-- One per-paper task as it resolves at the gather point: its returned
(title, paper_result) pair, or the unexpected error that escaped it.  crash
injects such an unexpected error (outside the modelled code paths); with
crash title = Option.none the task returns normally, because every modelled
failure is caught inside process_single_paper. -/
def taskOf (env : String → PaperEnv) (crash : String → Option String)
    (config : Config) (p : String × PaperData) :
    Except String (String × PaperValue) :=
  match crash p.1 with
  | some msg => Except.error msg
  | Option.none => Except.ok (p.1, (process_single_paper p.1 p.2 (env p.1) config).value)

/-- Model of process_papers_with_llm (src/llm.py lines 142-159): one task
per input paper, run concurrently and gathered with
return_exceptions=True, then collected into the result dict. -/
def process_papers_with_llm (papers : List (String × PaperData))
    (env : String → PaperEnv) (crash : String → Option String)
    (config : Config) : List (String × PaperValue) :=
  gatherResults (papers.map (taskOf env crash config))

/-- Total number of model calls the launched per-paper tasks make (ghost
instrumentation summed over papers). -/
def totalModelCalls (papers : List (String × PaperData)) (env : String → PaperEnv)
    (config : Config) : Nat :=
  (papers.map (fun p =>
    let run := process_single_paper p.1 p.2 (env p.1) config
    run.summaryCalls + run.ratingCalls)).sum

/-- One value of the results mapping as src/mail.py sees it: a dict whose
fields may each be present or not (isinstance and key-membership checks in
lines 54-62 and 71-92 distinguish them), or a non-dict value such as a
failure string. -/
inductive MailEntry where
  | dict (summary : Option PyVal) (interest_rating : Option PyVal) (url : Option String)
  | raw (msg : String)

/-- The isinstance(data, dict) check of src/mail.py. -/
def MailEntry.isDict : MailEntry → Bool
  | MailEntry.dict _ _ _ => true
  | MailEntry.raw _ => false

/-- What a per-paper value of src/llm.py looks like to src/mail.py. -/
def toMailEntry : PaperValue → MailEntry
  | PaperValue.structured s ir u => MailEntry.dict (some s) (some ir) (some u)
  | PaperValue.failure m => MailEntry.raw m

/-- The sort key derived in src/mail.py lines 52-62: the interest_rating
when the entry is a dict carrying an int there (a Python bool counts as an
int for isinstance), and the sentinel -1 for a missing or non-int rating or
a non-dict entry. -/
def ratingSortKey : MailEntry → Int
  | MailEntry.dict _ (some (PyVal.int n)) _ => n
  | MailEntry.dict _ (some (PyVal.bool b)) _ => if b then 1 else 0
  | MailEntry.dict _ _ _ => -1
  | MailEntry.raw _ => -1

/-- The annotated triples (title, data, key) built in lines 52-62. -/
def sortKeyed (results : List (String × MailEntry)) : List (String × MailEntry × Int) :=
  results.map (fun p => (p.1, p.2, ratingSortKey p.2))

/-- Ordering for the descending stable sort of line 65 (sort with
key=lambda x: x[2] and reverse=True). -/
def descendingByKey (a b : String × MailEntry × Int) : Prop :=
  b.2.2 ≤ a.2.2

instance : DecidableRel descendingByKey := fun a b =>
  inferInstanceAs (Decidable (b.2.2 ≤ a.2.2))

/-- The sorted_papers list of src/mail.py lines 52-65: annotate each entry
with its sort key and sort descending by key, stably.  Python sort with
reverse=True is stable, and so is insertionSort with this relation, so the
two compute the same list. -/
def sorted_papers (results : List (String × MailEntry)) : List (String × MailEntry × Int) :=
  List.insertionSort descendingByKey (sortKeyed results)

/-- The guard of src/mail.py line 140: results is truthy (non-empty) and
some value is a dict. -/
def hasValidResults (results : List (String × MailEntry)) : Bool :=
  !results.isEmpty && results.any (fun p => p.2.isDict)

/-- Model of the send decision of send_results_email (src/mail.py lines
139-167).  The SMTP transport is external: smtpOk says whether send_email
would report success.  Returns (whether send_email was invoked at all, the
bool the function returns). -/
def send_results_email (results : List (String × MailEntry)) (smtpOk : Bool) :
    Bool × Bool :=
  if hasValidResults results then (true, smtpOk) else (false, false)

/-! Derived predicates and proof fixtures. -/

/-- Whether the summary loop ended in success. -/
def SummaryLoopOut.isSuccess : SummaryLoopOut → Bool
  | SummaryLoopOut.success _ => true
  | _ => false

/-- A summary attempt given this call result fails: either the call raised,
or the returned text does not parse as a literal. -/
def summaryAttemptFails : CallResult → Bool
  | CallResult.ok text => (literal_eval text).isNone
  | CallResult.errParse _ => true
  | CallResult.errOther _ => true

/-- A rating attempt given this call result fails: the call raised, the
trimmed text does not parse as an int, or the int is outside 0..10. -/
def ratingAttemptFails : CallResult → Bool
  | CallResult.ok text =>
    match pyInt (pyStrip text) with
    | some n => !(decide (0 ≤ n) && decide (n ≤ 10))
    | Option.none => true
  | CallResult.errParse _ => true
  | CallResult.errOther _ => true

/-- The (title, value) pairs of the tasks that resolved normally, in task
order. -/
def okTasks (tasks : List (Except String (String × PaperValue))) :
    List (String × PaperValue) :=
  tasks.filterMap (fun r =>
    match r with
    | Except.ok tv => some tv
    | Except.error _ => Option.none)

/-- The invariant claimed for the interest_rating field of a structured
result: it is either a failure string, or an int within 0..10 that some
rating-stage response, after trimming, parsed to. -/
def RatingInvariant (env : PaperEnv) (ir : PyVal) : Prop :=
  (∃ m, ir = PyVal.str m) ∨
  (∃ n, ir = PyVal.int n ∧ 0 ≤ n ∧ n ≤ 10 ∧
    ∃ i, i < 3 ∧ ∃ t, env.ratingResp i = CallResult.ok t ∧ pyInt (pyStrip t) = some n)

/-- Fixture paper record. -/
def demoPaper : PaperData :=
  { abstract := "abs", url := "u" }

/-- Fixture: the summarizer fails on attempt 1 (text that is no literal)
and succeeds on attempt 2 with a three-bullet list; the rater answers 15
(out of range) and then 7. -/
def envTwoStage : PaperEnv :=
  { summaryResp := fun i =>
      if i = 0 then CallResult.ok "oops" else CallResult.ok "['p1', 'p2', 'p3']"
    ratingResp := fun i =>
      if i = 0 then CallResult.ok "15" else CallResult.ok "7" }

/-- Fixture: every summarizer response is unparsable text, every rater
response a non-integer. -/
def envSumFail : PaperEnv :=
  { summaryResp := fun _ => CallResult.ok "blah"
    ratingResp := fun _ => CallResult.ok "abc" }

/-- Fixture: the summarizer answers the integer literal 42 (a literal of a
non-list type), the rater answers 5. -/
def envIntSummary : PaperEnv :=
  { summaryResp := fun _ => CallResult.ok "42"
    ratingResp := fun _ => CallResult.ok "5" }

/-- Fixture: the summarizer succeeds at once, every rater response is a
non-integer. -/
def envRatFail : PaperEnv :=
  { summaryResp := fun _ => CallResult.ok "['x']"
    ratingResp := fun _ => CallResult.ok "abc" }

/-- Fixture: the summarizer succeeds at once, the rater answers 7. -/
def envRate7 : PaperEnv :=
  { summaryResp := fun _ => CallResult.ok "['x']"
    ratingResp := fun _ => CallResult.ok "7" }

/-- Fixture results mapping for the ranking example: A rated 7, B with a
failed rating, C rated 10. -/
def exRanking : List (String × MailEntry) :=
  [("A", MailEntry.dict (some (PyVal.list [PyVal.str "a"])) (some (PyVal.int 7)) (some "ua")),
   ("B", MailEntry.dict (some (PyVal.list [PyVal.str "b"]))
      (some (PyVal.str "Failed to get rating after 3 attempts")) (some "ub")),
   ("C", MailEntry.dict (some (PyVal.list [PyVal.str "c"])) (some (PyVal.int 10)) (some "uc"))]

/-- Fixture environment assignment: every title gets the two-stage fixture
responses. -/
def demoEnvFun : String → PaperEnv := fun _ => envTwoStage

/-- Fixture papers mapping with two distinct titles. -/
def demoPapers : List (String × PaperData) :=
  [("Alpha", demoPaper), ("Beta", demoPaper)]

/-- Fixture crash function: the task for Beta dies with an unexpected
error, every other task runs normally. -/
def crashBeta : String → Option String :=
  fun t => if t = "Beta" then some "boom" else Option.none

end Paperfetch

/-! Helper lemmas about the loops, the gather step and the batch. -/

namespace Paperfetch

theorem summaryLoop_calls_le : ∀ rs : List CallResult, (summaryLoop rs).2 ≤ rs.length := by
  intro rs
  induction rs with
  | nil => simp [summaryLoop]
  | cons r rest ih =>
    cases rest with
    | nil =>
      cases r with
      | ok text => simp only [summaryLoop]; cases literal_eval text <;> simp
      | errParse m => simp [summaryLoop]
      | errOther m => simp [summaryLoop]
    | cons r2 rest2 =>
      cases r with
      | ok text =>
        simp only [summaryLoop]
        cases literal_eval text with
        | none => simp at ih ⊢; omega
        | some v => simp
      | errParse m => simp only [summaryLoop]; simp at ih ⊢; omega
      | errOther m => simp only [summaryLoop]; simp at ih ⊢; omega

theorem ratingLoop_calls_le (total : Nat) :
    ∀ (rs : List CallResult) (st : PyVal), (ratingLoop total rs st).2 ≤ rs.length := by
  intro rs
  induction rs with
  | nil => intro st; simp [ratingLoop]
  | cons r rest ih =>
    intro st
    cases rest with
    | nil =>
      cases r with
      | ok text =>
        rcases hp : pyInt (pyStrip text) with _ | n
        . simp [ratingLoop, hp]
        . simp only [ratingLoop, hp]
          split
          . simp
          . simp
      | errParse m => simp [ratingLoop]
      | errOther m => simp [ratingLoop]
    | cons r2 rest2 =>
      cases r with
      | ok text =>
        rcases hp : pyInt (pyStrip text) with _ | n
        . have := ih st
          simp only [ratingLoop, hp]
          simp at this ⊢; omega
        . simp only [ratingLoop, hp]
          split
          . simp
          . have := ih (PyVal.int n)
            simp at this ⊢; omega
      | errParse m =>
        have := ih st
        simp only [ratingLoop]; simp at this ⊢; omega
      | errOther m =>
        have := ih st
        simp only [ratingLoop]; simp at this ⊢; omega


theorem summaryLoop_first_ok (t : String) (v : PyVal) (rest : List CallResult)
    (h : literal_eval t = some v) :
    summaryLoop (CallResult.ok t :: rest) = (SummaryLoopOut.success v, 1) := by
  cases rest <;> simp [summaryLoop, h]

theorem summaryLoop_all_fail :
    ∀ rs : List CallResult, (∀ r ∈ rs, summaryAttemptFails r = true) →
      (summaryLoop rs).1.isSuccess = false := by
  intro rs
  induction rs with
  | nil => intro _; simp [summaryLoop, SummaryLoopOut.isSuccess]
  | cons r rest ih =>
    intro hall
    have hr : summaryAttemptFails r = true := hall r (List.mem_cons_self _ _)
    cases rest with
    | nil =>
      cases r with
      | ok text =>
        simp only [summaryAttemptFails, Option.isNone_iff_eq_none] at hr
        simp [summaryLoop, hr, SummaryLoopOut.isSuccess]
      | errParse m => simp [summaryLoop, SummaryLoopOut.isSuccess]
      | errOther m => simp [summaryLoop, SummaryLoopOut.isSuccess]
    | cons r2 rest2 =>
      have htail := ih (fun x hx => hall x (List.mem_cons_of_mem _ hx))
      cases r with
      | ok text =>
        simp only [summaryAttemptFails, Option.isNone_iff_eq_none] at hr
        simpa [summaryLoop, hr] using htail
      | errParse m => simpa [summaryLoop] using htail
      | errOther m => simpa [summaryLoop] using htail

theorem ratingLoop_sound (total : Nat) :
    ∀ (rs : List CallResult) (st : PyVal), rs ≠ [] →
      (∃ m, (ratingLoop total rs st).1 = PyVal.str m) ∨
      (∃ n, (ratingLoop total rs st).1 = PyVal.int n ∧ 0 ≤ n ∧ n ≤ 10 ∧
        ∃ t, CallResult.ok t ∈ rs ∧ pyInt (pyStrip t) = some n) := by
  intro rs
  induction rs with
  | nil => intro st h; exact absurd rfl h
  | cons r rest ih =>
    intro st _
    cases rest with
    | nil =>
      cases r with
      | ok text =>
        rcases hp : pyInt (pyStrip text) with _ | n
        . left; simp [ratingLoop, hp]
        . by_cases hr : 0 ≤ n ∧ n ≤ 10
          . right
            exact ⟨n, by simp [ratingLoop, hp, hr], hr.1, hr.2, text,
              List.mem_cons_self _ _, hp⟩
          . left; simp [ratingLoop, hp, hr]
      | errParse m => left; simp [ratingLoop]
      | errOther m => left; simp [ratingLoop]
    | cons r2 rest2 =>
      cases r with
      | ok text =>
        rcases hp : pyInt (pyStrip text) with _ | n
        . rcases ih st (by simp) with ⟨m, hm⟩ | ⟨n2, h1, h2, h3, t, ht, hpt⟩
          . left; exact ⟨m, by simp only [ratingLoop, hp]; exact hm⟩
          . right
            exact ⟨n2, by simp only [ratingLoop, hp]; exact h1, h2, h3, t,
              List.mem_cons_of_mem _ ht, hpt⟩
        . by_cases hr : 0 ≤ n ∧ n ≤ 10
          . right
            exact ⟨n, by simp [ratingLoop, hp, hr], hr.1, hr.2, text,
              List.mem_cons_self _ _, hp⟩
          . rcases ih (PyVal.int n) (by simp) with ⟨m, hm⟩ | ⟨n2, h1, h2, h3, t, ht, hpt⟩
            . left; exact ⟨m, by simp only [ratingLoop, hp, if_neg hr]; exact hm⟩
            . right
              exact ⟨n2, by simp only [ratingLoop, hp, if_neg hr]; exact h1, h2, h3, t,
                List.mem_cons_of_mem _ ht, hpt⟩
      | errParse m =>
        rcases ih st (by simp) with ⟨m2, hm⟩ | ⟨n2, h1, h2, h3, t, ht, hpt⟩
        . left; exact ⟨m2, by simp only [ratingLoop]; exact hm⟩
        . right
          exact ⟨n2, by simp only [ratingLoop]; exact h1, h2, h3, t,
            List.mem_cons_of_mem _ ht, hpt⟩
      | errOther m =>
        rcases ih st (by simp) with ⟨m2, hm⟩ | ⟨n2, h1, h2, h3, t, ht, hpt⟩
        . left; exact ⟨m2, by simp only [ratingLoop]; exact hm⟩
        . right
          exact ⟨n2, by simp only [ratingLoop]; exact h1, h2, h3, t,
            List.mem_cons_of_mem _ ht, hpt⟩

theorem ratingLoop_all_fail (total : Nat) :
    ∀ (rs : List CallResult) (st : PyVal), rs ≠ [] →
      (∀ r ∈ rs, ratingAttemptFails r = true) →
      ∃ m, (ratingLoop total rs st).1 = PyVal.str m := by
  intro rs
  induction rs with
  | nil => intro st h; exact absurd rfl h
  | cons r rest ih =>
    intro st _ hall
    have hr : ratingAttemptFails r = true := hall r (List.mem_cons_self _ _)
    cases rest with
    | nil =>
      cases r with
      | ok text =>
        rcases hp : pyInt (pyStrip text) with _ | n
        . simp [ratingLoop, hp]
        . simp only [ratingAttemptFails, hp] at hr
          have hnr : ¬ (0 ≤ n ∧ n ≤ 10) := by
            intro hc
            simp [hc.1, hc.2] at hr
          simp [ratingLoop, hp, hnr]
      | errParse m => simp [ratingLoop]
      | errOther m => simp [ratingLoop]
    | cons r2 rest2 =>
      have htail : ∀ st2 : PyVal, ∃ m, (ratingLoop total (r2 :: rest2) st2).1 = PyVal.str m :=
        fun st2 => ih st2 (by simp) (fun x hx => hall x (List.mem_cons_of_mem _ hx))
      cases r with
      | ok text =>
        rcases hp : pyInt (pyStrip text) with _ | n
        . rcases htail st with ⟨m, hm⟩
          exact ⟨m, by simp only [ratingLoop, hp]; exact hm⟩
        . simp only [ratingAttemptFails, hp] at hr
          have hnr : ¬ (0 ≤ n ∧ n ≤ 10) := by
            intro hc
            simp [hc.1, hc.2] at hr
          rcases htail (PyVal.int n) with ⟨m, hm⟩
          exact ⟨m, by simp only [ratingLoop, hp, if_neg hnr]; exact hm⟩
      | errParse m2 =>
        rcases htail st with ⟨m, hm⟩
        exact ⟨m, by simp only [ratingLoop]; exact hm⟩
      | errOther m2 =>
        rcases htail st with ⟨m, hm⟩
        exact ⟨m, by simp only [ratingLoop]; exact hm⟩

theorem process_single_paper_summaryCalls (title : String) (paper : PaperData)
    (env : PaperEnv) (config : Config) :
    (process_single_paper title paper env config).summaryCalls =
      (summaryLoop ((List.range (config.max_attempts.getD 3)).map env.summaryResp)).2 := by
  unfold process_single_paper
  dsimp only
  split
  . split <;> rfl
  all_goals rfl

theorem process_single_paper_ratingCalls_le (title : String) (paper : PaperData)
    (env : PaperEnv) (config : Config) :
    (process_single_paper title paper env config).ratingCalls ≤ 3 := by
  unfold process_single_paper
  dsimp only
  split
  . split
    . simp
    . refine le_trans (ratingLoop_calls_le _ _ _) ?_
      simp
  all_goals simp

theorem dictSet_fresh (k : String) (v : PaperValue) :
    ∀ res : List (String × PaperValue), k ∉ res.map Prod.fst →
      dictSet res k v = res ++ [(k, v)] := by
  intro res
  induction res with
  | nil => intro _; rfl
  | cons p rest ih =>
    intro h
    simp only [List.map_cons, List.mem_cons] at h
    push_neg at h
    simp only [dictSet, if_neg (fun hc : p.1 = k => h.1 hc.symm)]
    rw [ih h.2]
    simp

theorem gatherFold_eq :
    ∀ (tasks : List (Except String (String × PaperValue)))
      (acc : List (String × PaperValue)),
      ((okTasks tasks).map Prod.fst).Nodup →
      (∀ k ∈ (okTasks tasks).map Prod.fst, k ∉ acc.map Prod.fst) →
      tasks.foldl gatherStep acc = acc ++ okTasks tasks := by
  intro tasks
  induction tasks with
  | nil => intro acc _ _; simp [okTasks]
  | cons t ts ih =>
    intro acc hnodup hdisj
    cases t with
    | error m =>
      have he : okTasks (Except.error m :: ts) = okTasks ts := by simp [okTasks]
      rw [he] at hnodup hdisj
      rw [List.foldl_cons]
      have : gatherStep acc (Except.error m) = acc := rfl
      rw [this, ih acc hnodup hdisj, he]
    | ok tv =>
      have he : okTasks (Except.ok tv :: ts) = tv :: okTasks ts := by simp [okTasks]
      rw [he] at hnodup hdisj
      simp only [List.map_cons, List.nodup_cons] at hnodup
      have hfresh : tv.1 ∉ acc.map Prod.fst :=
        hdisj tv.1 (by simp)
      rw [List.foldl_cons]
      have hstep : gatherStep acc (Except.ok tv) = acc ++ [tv] := by
        have := dictSet_fresh tv.1 tv.2 acc hfresh
        simpa [gatherStep] using this
      have hdisj2 : ∀ k ∈ (okTasks ts).map Prod.fst, k ∉ (acc ++ [tv]).map Prod.fst := by
        intro k hk
        simp only [List.map_append, List.mem_append, List.map_cons, List.map_nil,
          List.mem_cons, List.not_mem_nil, or_false]
        push_neg
        refine ⟨hdisj k (by simp [hk]), ?_⟩
        intro hc
        exact hnodup.1 (hc ▸ hk)
      rw [hstep, ih (acc ++ [tv]) hnodup.2 hdisj2, he]
      simp

theorem gatherResults_eq (tasks : List (Except String (String × PaperValue)))
    (h : ((okTasks tasks).map Prod.fst).Nodup) :
    gatherResults tasks = okTasks tasks := by
  simpa [gatherResults] using gatherFold_eq tasks [] h (by simp)

theorem okTasks_taskOf (env : String → PaperEnv) (crash : String → Option String)
    (config : Config) :
    ∀ papers : List (String × PaperData),
      okTasks (papers.map (taskOf env crash config)) =
        (papers.filter (fun p => (crash p.1).isNone)).map
          (fun p => (p.1, (process_single_paper p.1 p.2 (env p.1) config).value)) := by
  intro papers
  induction papers with
  | nil => rfl
  | cons p ps ih =>
    rcases hc : crash p.1 with _ | msg
    . simp only [List.map_cons, okTasks, List.filterMap_cons, taskOf, hc] at ih ⊢
      rw [ih]
      simp [List.filter_cons, hc]
    . simp only [List.map_cons, okTasks, List.filterMap_cons, taskOf, hc] at ih ⊢
      rw [ih]
      simp [List.filter_cons, hc]

theorem process_papers_eq (papers : List (String × PaperData))
    (env : String → PaperEnv) (crash : String → Option String) (config : Config)
    (h : (papers.map Prod.fst).Nodup) :
    process_papers_with_llm papers env crash config =
      (papers.filter (fun p => (crash p.1).isNone)).map
        (fun p => (p.1, (process_single_paper p.1 p.2 (env p.1) config).value)) := by
  unfold process_papers_with_llm
  rw [gatherResults_eq, okTasks_taskOf]
  rw [okTasks_taskOf]
  have hkeys : (((papers.filter (fun p => (crash p.1).isNone)).map
      (fun p => (p.1, (process_single_paper p.1 p.2 (env p.1) config).value))).map Prod.fst)
      = (papers.filter (fun p => (crash p.1).isNone)).map Prod.fst := by
    simp [List.map_map]
  rw [hkeys]
  exact h.sublist (List.Sublist.map Prod.fst (List.filter_sublist papers))

theorem summaryLoop_all_fail_calls :
    ∀ rs : List CallResult, (∀ r ∈ rs, summaryAttemptFails r = true) →
      (summaryLoop rs).2 = rs.length := by
  intro rs
  induction rs with
  | nil => intro _; rfl
  | cons r rest ih =>
    intro hall
    have hr : summaryAttemptFails r = true := hall r (List.mem_cons_self _ _)
    cases rest with
    | nil =>
      cases r with
      | ok text =>
        simp only [summaryAttemptFails, Option.isNone_iff_eq_none] at hr
        simp [summaryLoop, hr]
      | errParse m => simp [summaryLoop]
      | errOther m => simp [summaryLoop]
    | cons r2 rest2 =>
      have htail := ih (fun x hx => hall x (List.mem_cons_of_mem _ hx))
      cases r with
      | ok text =>
        simp only [summaryAttemptFails, Option.isNone_iff_eq_none] at hr
        simp [summaryLoop, hr, htail]
      | errParse m => simp [summaryLoop, htail]
      | errOther m => simp [summaryLoop, htail]

theorem ratingLoop_all_fail_calls (total : Nat) :
    ∀ (rs : List CallResult) (st : PyVal), (∀ r ∈ rs, ratingAttemptFails r = true) →
      (ratingLoop total rs st).2 = rs.length := by
  intro rs
  induction rs with
  | nil => intro st _; rfl
  | cons r rest ih =>
    intro st hall
    have hr : ratingAttemptFails r = true := hall r (List.mem_cons_self _ _)
    cases rest with
    | nil =>
      cases r with
      | ok text =>
        rcases hp : pyInt (pyStrip text) with _ | n
        . simp [ratingLoop, hp]
        . simp only [ratingAttemptFails, hp] at hr
          have hnr : ¬ (0 ≤ n ∧ n ≤ 10) := by
            intro hc
            simp [hc.1, hc.2] at hr
          simp [ratingLoop, hp, hnr]
      | errParse m => simp [ratingLoop]
      | errOther m => simp [ratingLoop]
    | cons r2 rest2 =>
      have htail : ∀ st2 : PyVal, (ratingLoop total (r2 :: rest2) st2).2 = (r2 :: rest2).length :=
        fun st2 => ih st2 (fun x hx => hall x (List.mem_cons_of_mem _ hx))
      cases r with
      | ok text =>
        rcases hp : pyInt (pyStrip text) with _ | n
        . simp [ratingLoop, hp, htail st]
        . simp only [ratingAttemptFails, hp] at hr
          have hnr : ¬ (0 ≤ n ∧ n ≤ 10) := by
            intro hc
            simp [hc.1, hc.2] at hr
          simp [ratingLoop, hp, hnr, htail (PyVal.int n)]
      | errParse m => simp [ratingLoop, htail st]
      | errOther m => simp [ratingLoop, htail st]

theorem process_single_paper_success (title : String) (paper : PaperData)
    (env : PaperEnv) (config : Config) (v : PyVal)
    (h : (summaryLoop ((List.range (config.max_attempts.getD 3)).map env.summaryResp)).1
        = SummaryLoopOut.success v)
    (hv : v.isNone = false) :
    process_single_paper title paper env config =
      { value := PaperValue.structured v
          (ratingLoop 3 ((List.range 3).map env.ratingResp) PyVal.none).1 paper.url
        summaryCalls :=
          (summaryLoop ((List.range (config.max_attempts.getD 3)).map env.summaryResp)).2
        ratingCalls := (ratingLoop 3 ((List.range 3).map env.ratingResp) PyVal.none).2 } := by
  unfold process_single_paper
  dsimp only
  split
  case _ v2 heq =>
    rw [h] at heq
    cases heq
    rw [if_neg (by simp [hv])]
  all_goals (rename_i heq; rw [h] at heq; cases heq)

theorem range_succ_map_head (f : Nat → CallResult) (k : Nat) :
    (List.range (k + 1)).map f = f 0 :: (List.range k).map (fun i => f (i + 1)) := by
  rw [List.range_succ_eq_map, List.map_cons, List.map_map]
  rfl

/-- C1: assuming only modelled failures (no crash), enrich preserves the key
set of the input mapping, and on the empty mapping returns an empty batch
with zero model calls. -/
theorem C1_enrich_preserves_key_set (papers : List (String × PaperData))
    (env : String → PaperEnv) (config : Config)
    (hkeys : (papers.map Prod.fst).Nodup) :
    (process_papers_with_llm papers env (fun _ => Option.none) config).map Prod.fst
      = papers.map Prod.fst
    ∧ process_papers_with_llm [] env (fun _ => Option.none) config = []
    ∧ totalModelCalls [] env config = 0 := by
  refine ⟨?_, rfl, rfl⟩
  rw [process_papers_eq papers env (fun _ => Option.none) config hkeys]
  simp [List.map_map]

theorem C1_enrich_preserves_key_set_witness :
    (process_papers_with_llm demoPapers demoEnvFun (fun _ => Option.none) {}).map Prod.fst
      = demoPapers.map Prod.fst
    ∧ process_papers_with_llm [] demoEnvFun (fun _ => Option.none) {} = []
    ∧ totalModelCalls [] demoEnvFun {} = 0 :=
  C1_enrich_preserves_key_set demoPapers demoEnvFun {} (by decide)

/-- C2 counterexample: a paper whose summarizer fails on every attempt gets
a plain failure string as its batch entry, not a structured
EnrichmentResult; the url is not retained (and no rating call is made). -/
theorem C2_structured_entry_counterexample :
    (process_single_paper "T" demoPaper envSumFail {}).value
      = PaperValue.failure "Failed to parse output after 3 attempts, skipping paper: T"
    ∧ (process_single_paper "T" demoPaper envSumFail {}).ratingCalls = 0 :=
  ⟨rfl, rfl⟩

/-- C2 amended: when every summary attempt fails, the batch entry for the
title is a plain failure string (not a structured result with url and
rating fields), and zero rating calls are made. -/
theorem C2_summary_exhaustion_yields_failure_string (title : String)
    (paper : PaperData) (env : PaperEnv) (config : Config)
    (hfail : ∀ i < config.max_attempts.getD 3,
      summaryAttemptFails (env.summaryResp i) = true) :
    (process_single_paper title paper env config).value.isFailure = true
    ∧ (process_single_paper title paper env config).ratingCalls = 0 := by
  have hall : ∀ r ∈ (List.range (config.max_attempts.getD 3)).map env.summaryResp,
      summaryAttemptFails r = true := by
    intro r hrm
    rcases List.mem_map.mp hrm with ⟨i, hi, rfl⟩
    exact hfail i (List.mem_range.mp hi)
  have hs := summaryLoop_all_fail _ hall
  unfold process_single_paper
  dsimp only
  split
  case _ v heq => rw [heq] at hs; simp [SummaryLoopOut.isSuccess] at hs
  all_goals exact ⟨rfl, rfl⟩

theorem C2_summary_exhaustion_witness :
    (process_single_paper "T" demoPaper envSumFail {}).value.isFailure = true
    ∧ (process_single_paper "T" demoPaper envSumFail {}).ratingCalls = 0 :=
  C2_summary_exhaustion_yields_failure_string "T" demoPaper envSumFail {}
    (fun _ _ => rfl)

/-- C3: a structured result carries an int rating only when it lies in
0..10 and some rating response parsed to it after trimming; otherwise the
rating field is a failure string. -/
theorem C3_rating_only_in_range (title : String) (paper : PaperData)
    (env : PaperEnv) (config : Config) (s ir : PyVal) (u : String)
    (h : (process_single_paper title paper env config).value
      = PaperValue.structured s ir u) :
    RatingInvariant env ir := by
  unfold process_single_paper at h
  dsimp only at h
  split at h
  case _ v heq =>
    rcases hv : v.isNone with _ | _
    . rw [if_neg (by simp [hv])] at h
      dsimp only at h
      injection h with h1 h2 h3
      subst h2
      rcases ratingLoop_sound 3 ((List.range 3).map env.ratingResp) PyVal.none (by simp)
        with ⟨m, hm⟩ | ⟨n, hn1, hn2, hn3, t, ht, hpt⟩
      . exact Or.inl ⟨m, hm⟩
      . refine Or.inr ⟨n, hn1, hn2, hn3, ?_⟩
        rcases List.mem_map.mp ht with ⟨i, hi, hfi⟩
        exact ⟨i, List.mem_range.mp hi, t, hfi, hpt⟩
    . rw [if_pos (by simp [hv])] at h
      simp at h
  all_goals simp at h

theorem C3_rating_only_in_range_witness :
    RatingInvariant envRate7 (PyVal.int 7) :=
  C3_rating_only_in_range "T" demoPaper envRate7 {}
    (PyVal.list [PyVal.str "x"]) (PyVal.int 7) "u" rfl

/-- C4 counterexample: a summarizer response that is the integer literal 42
(not a list of strings) is accepted as a successful attempt; the summary
field of the structured result is the int 42 and the stage stops after one
call. -/
theorem C4_list_of_strings_counterexample :
    (process_single_paper "T" demoPaper envIntSummary {}).value
      = PaperValue.structured (PyVal.int 42) (PyVal.int 5) "u"
    ∧ (process_single_paper "T" demoPaper envIntSummary {}).summaryCalls = 1 :=
  ⟨rfl, rfl⟩

/-- C4 amended: a summarization attempt succeeds exactly when the returned
text parses as a Python literal of any type; the parsed value is not
validated to be a list of strings, and becomes the summary as is. -/
theorem C4_any_literal_accepted (title : String) (paper : PaperData)
    (env : PaperEnv) (config : Config) (t : String) (v : PyVal)
    (h1 : env.summaryResp 0 = CallResult.ok t)
    (h2 : literal_eval t = some v)
    (h3 : 0 < config.max_attempts.getD 3)
    (h4 : v.isNone = false) :
    ∃ ir, (process_single_paper title paper env config).value
        = PaperValue.structured v ir paper.url
      ∧ (process_single_paper title paper env config).summaryCalls = 1 := by
  obtain ⟨k, hk⟩ : ∃ k, config.max_attempts.getD 3 = k + 1 :=
    ⟨config.max_attempts.getD 3 - 1, (Nat.succ_pred_eq_of_pos h3).symm⟩
  have hsucc : (summaryLoop ((List.range (config.max_attempts.getD 3)).map env.summaryResp)).1
      = SummaryLoopOut.success v := by
    rw [hk, range_succ_map_head, h1, summaryLoop_first_ok t v _ h2]
  have hcalls : (summaryLoop ((List.range (config.max_attempts.getD 3)).map env.summaryResp)).2
      = 1 := by
    rw [hk, range_succ_map_head, h1, summaryLoop_first_ok t v _ h2]
  rw [process_single_paper_success title paper env config v hsucc h4]
  exact ⟨_, rfl, hcalls⟩

theorem C4_any_literal_accepted_witness :
    ∃ ir, (process_single_paper "T" demoPaper envIntSummary {}).value
        = PaperValue.structured (PyVal.int 42) ir demoPaper.url
      ∧ (process_single_paper "T" demoPaper envIntSummary {}).summaryCalls = 1 :=
  C4_any_literal_accepted "T" demoPaper envIntSummary {} "42" (PyVal.int 42)
    rfl rfl (by decide) rfl

/-- C5 counterexample: the one configurable attempt budget (api
max_attempts, here set to 7) drives the summary stage to 7 attempts, while
the rating stage still makes exactly 3 attempts under the same
configuration (and under the default one): the rating budget is not an
independently configurable parameter. -/
theorem C5_rating_budget_counterexample :
    (process_single_paper "T" demoPaper envSumFail
        { max_attempts := some 7 }).summaryCalls = 7
    ∧ (process_single_paper "T" demoPaper envRatFail
        { max_attempts := some 7 }).ratingCalls = 3
    ∧ (process_single_paper "T" demoPaper envRatFail {}).ratingCalls = 3 :=
  ⟨rfl, rfl, rfl⟩

/-- C5 amended: only the summary retry budget is configurable (api
max_attempts, default 3); the rating stage makes at most 3 attempts under
every configuration, and exactly 3 when every rating attempt fails,
whatever budget the configuration sets. -/
theorem C5_only_summary_budget_configurable (title : String) (paper : PaperData)
    (env : PaperEnv) (config : Config) (k : Nat) (r : Option String) :
    (process_single_paper title paper env config).summaryCalls
        ≤ config.max_attempts.getD 3
    ∧ (process_single_paper title paper env config).ratingCalls ≤ 3
    ∧ (process_single_paper title paper envSumFail config).summaryCalls
        = config.max_attempts.getD 3
    ∧ (process_single_paper title paper envRatFail
        { max_attempts := some (k + 1), researcher_interests := r }).ratingCalls = 3 := by
  refine ⟨?_, process_single_paper_ratingCalls_le .., ?_, ?_⟩
  . rw [process_single_paper_summaryCalls]
    exact le_trans (summaryLoop_calls_le _) (by simp)
  . rw [process_single_paper_summaryCalls]
    rw [summaryLoop_all_fail_calls _ (fun x hx => ?_)]
    . simp
    . rcases List.mem_map.mp hx with ⟨i, _, rfl⟩
      rfl
  . have hsucc : (summaryLoop ((List.range
        (({ max_attempts := some (k + 1), researcher_interests := r } : Config).max_attempts.getD 3)).map
          envRatFail.summaryResp)).1
        = SummaryLoopOut.success (PyVal.list [PyVal.str "x"]) := by
      show (summaryLoop ((List.range (k + 1)).map envRatFail.summaryResp)).1 = _
      rw [range_succ_map_head]
      have h0 : envRatFail.summaryResp 0 = CallResult.ok "['x']" := rfl
      rw [h0, summaryLoop_first_ok "['x']" (PyVal.list [PyVal.str "x"]) _ rfl]
    rw [process_single_paper_success _ _ _ _ _ hsucc rfl]
    rfl

/-- C6: when the summary stage has succeeded with bullets v and every
rating attempt fails, the final result still holds v as its summary,
together with a failure string in the rating field. -/
theorem C6_rating_failure_keeps_summary (title : String) (paper : PaperData)
    (env : PaperEnv) (config : Config) (v : PyVal)
    (hs : (summaryLoop ((List.range (config.max_attempts.getD 3)).map env.summaryResp)).1
        = SummaryLoopOut.success v)
    (hv : v.isNone = false)
    (hr : ∀ i < 3, ratingAttemptFails (env.ratingResp i) = true) :
    ∃ m, (process_single_paper title paper env config).value
      = PaperValue.structured v (PyVal.str m) paper.url := by
  rw [process_single_paper_success title paper env config v hs hv]
  have hall : ∀ x ∈ (List.range 3).map env.ratingResp, ratingAttemptFails x = true := by
    intro x hx
    rcases List.mem_map.mp hx with ⟨i, hi, rfl⟩
    exact hr i (List.mem_range.mp hi)
  rcases ratingLoop_all_fail 3 ((List.range 3).map env.ratingResp) PyVal.none (by simp) hall
    with ⟨m, hm⟩
  exact ⟨m, by dsimp only; rw [hm]⟩

theorem C6_rating_failure_keeps_summary_witness :
    ∃ m, (process_single_paper "T" demoPaper envRatFail {}).value
      = PaperValue.structured (PyVal.list [PyVal.str "x"]) (PyVal.str m) demoPaper.url :=
  C6_rating_failure_keeps_summary "T" demoPaper envRatFail {}
    (PyVal.list [PyVal.str "x"]) rfl rfl (fun _ _ => rfl)

/-- C7: each stage makes at most its budget of calls, and on the concrete
two-stage scenario (summary fails once then succeeds, rater answers 15
then 7) the run ends with the parsed bullets, rating 7, and exactly 2
summary and 2 rating calls. -/
theorem C7_stage_call_counts :
    (∀ (title : String) (paper : PaperData) (env : PaperEnv) (config : Config),
      (process_single_paper title paper env config).summaryCalls
          ≤ config.max_attempts.getD 3
      ∧ (process_single_paper title paper env config).ratingCalls ≤ 3)
    ∧ process_single_paper "T" demoPaper envTwoStage {}
        = { value := PaperValue.structured
              (PyVal.list [PyVal.str "p1", PyVal.str "p2", PyVal.str "p3"])
              (PyVal.int 7) "u"
            summaryCalls := 2
            ratingCalls := 2 } := by
  refine ⟨fun title paper env config => ⟨?_, process_single_paper_ratingCalls_le ..⟩, rfl⟩
  rw [process_single_paper_summaryCalls]
  exact le_trans (summaryLoop_calls_le _) (by simp)

/-- C8: ranking annotates every entry with its sort key (the int rating for
a dict carrying one, the sentinel -1 otherwise), sorts descending by that
key without dropping entries, and on the example ratings A:7, B:failed,
C:10 produces the order C, A, B. -/
theorem C8_ranking_descending :
    (∀ results : List (String × MailEntry),
      (sorted_papers results).Pairwise descendingByKey)
    ∧ (∀ results : List (String × MailEntry),
      (sorted_papers results).Perm (sortKeyed results))
    ∧ (∀ s u n, ratingSortKey (MailEntry.dict s (some (PyVal.int n)) u) = n)
    ∧ (∀ s u m, ratingSortKey (MailEntry.dict s (some (PyVal.str m)) u) = -1)
    ∧ (∀ m, ratingSortKey (MailEntry.raw m) = -1)
    ∧ (sorted_papers exRanking).map Prod.fst = ["C", "A", "B"] := by
  have htot : IsTotal (String × MailEntry × Int) descendingByKey :=
    ⟨fun a b => le_total b.2.2 a.2.2⟩
  have htrans : IsTrans (String × MailEntry × Int) descendingByKey :=
    ⟨fun a b c hab hbc => le_trans hbc hab⟩
  refine ⟨?_, ?_, fun s u n => rfl, fun s u m => rfl, fun m => rfl, rfl⟩
  . intro results
    exact List.sorted_insertionSort descendingByKey (sortKeyed results)
  . intro results
    exact List.perm_insertionSort descendingByKey (sortKeyed results)

/-- C9: a per-paper task that dies with an unexpected error is the only one
missing from the batch (the key list is exactly the non-crashed input keys,
in order), and every non-crashed paper keeps exactly the entry its own
independent run produces; modelled failures never escape, they arrive as
data in that entry. -/
theorem C9_crash_isolation (papers : List (String × PaperData))
    (env : String → PaperEnv) (crash : String → Option String) (config : Config)
    (hkeys : (papers.map Prod.fst).Nodup) :
    (process_papers_with_llm papers env crash config).map Prod.fst
      = (papers.filter (fun p => (crash p.1).isNone)).map Prod.fst
    ∧ ∀ p ∈ papers, crash p.1 = Option.none →
        (p.1, (process_single_paper p.1 p.2 (env p.1) config).value)
          ∈ process_papers_with_llm papers env crash config := by
  rw [process_papers_eq papers env crash config hkeys]
  constructor
  . simp [List.map_map]
  . intro p hp hc
    refine List.mem_map.mpr ⟨p, ?_, rfl⟩
    exact List.mem_filter.mpr ⟨hp, by simp [hc]⟩

theorem C9_crash_isolation_witness :
    (process_papers_with_llm demoPapers demoEnvFun crashBeta {}).map Prod.fst
      = (demoPapers.filter (fun p => (crashBeta p.1).isNone)).map Prod.fst
    ∧ ∀ p ∈ demoPapers, crashBeta p.1 = Option.none →
        (p.1, (process_single_paper p.1 p.2 (demoEnvFun p.1) {}).value)
          ∈ process_papers_with_llm demoPapers demoEnvFun crashBeta {} :=
  C9_crash_isolation demoPapers demoEnvFun crashBeta {} (by decide)

/-- C10: when the results mapping is empty, or every value in it is a
non-dict failure string, send_results_email invokes no send at all and
returns False. -/
theorem C10_no_valid_results_skips_email (results : List (String × MailEntry))
    (smtpOk : Bool)
    (h : results = [] ∨ ∀ p ∈ results, p.2.isDict = false) :
    send_results_email results smtpOk = (false, false) := by
  have hv : hasValidResults results = false := by
    rcases h with rfl | hall
    . rfl
    . have hany : results.any (fun p => p.2.isDict) = false := by
        rw [List.any_eq_false]
        intro p hp
        simp [hall p hp]
      simp [hasValidResults, hany]
  simp [send_results_email, hv]

theorem C10_no_valid_results_skips_email_witness :
    send_results_email [("T", MailEntry.raw "Failed to get summary after 3 attempts")] true
      = (false, false) :=
  C10_no_valid_results_skips_email
    [("T", MailEntry.raw "Failed to get summary after 3 attempts")] true
    (Or.inr (by decide))

end Paperfetch
